import Mathlib

/-!
Verification development for the library-management backend
(Express + Prisma, TypeScript).  The borrowing lifecycle engine —
book/borrower CRUD, checkout, return, overdue queries and the
borrowing listing — is shallowly embedded below.  Timestamps are
integers (milliseconds since the epoch, the value of
`Date.prototype.getTime`), the Prisma store is a record of lists, and
each controller is a pure function from a state and a request to an
`Except` of an error and (for mutations) the successor state.
-/

namespace LibraryMS

/-- One day in milliseconds, the divisor `1000 * 60 * 60 * 24` used by
`getOverdueBooks`. -/
def msPerDay : Int := 1000 * 60 * 60 * 24

/-- Semantics of `date-fns`' `addDays t n` on epoch-millisecond
timestamps. -/
def addDays (t : Int) (n : Int) : Int := t + n * msPerDay

/-- A row of the `Book` table (`prisma/migrations/.../migration.sql`).
The stored column is the single integer `quantity` (decremented on
checkout, incremented on return).  The field `totalQuantity` is NOT a
column of the table and is never read by any embedded operation: it is
ghost state, modelled from the spec, which calls the stored column
`availableQuantity` and says `totalQuantity` is "mutated by inventory
updates"; `addBook` and `updateBook` set it alongside `quantity` so
that the spec's availability invariant can be stated. -/
structure Book where
  id : Nat
  title : String
  author : String
  isbn : String
  quantity : Int
  location : Option String
  totalQuantity : Int
deriving Repr, DecidableEq

/-- A row of the `Borrower` table. -/
structure Borrower where
  id : Nat
  name : String
  email : String
deriving Repr, DecidableEq

/-- A row of the `Borrowing` table.  `returnDate = none` means the
borrowing is open (the copy is out). -/
structure Borrowing where
  id : Nat
  bookId : Nat
  borrowerId : Nat
  checkoutDate : Int
  dueDate : Int
  returnDate : Option Int
deriving Repr, DecidableEq

/-- The Prisma store: the three tables plus the `SERIAL` sequences
that assign fresh primary keys (Postgres sequences start at 1). -/
structure LibState where
  books : List Book
  borrowers : List Borrower
  borrowings : List Borrowing
  nextBookId : Nat
  nextBorrowerId : Nat
  nextBorrowingId : Nat
deriving Repr, DecidableEq

/-- The freshly migrated database. -/
def emptyState : LibState :=
  { books := [], borrowers := [], borrowings := [],
    nextBookId := 1, nextBorrowerId := 1, nextBorrowingId := 1 }

/-- Error outcomes a controller can produce.  Each corresponds to one
`res.status(...).json({ error: ... })` site in the controllers;
`storageFailure` stands for a thrown Prisma error that reaches the
generic `catch` without a more specific classification. -/
inductive ApiError where
  | borrowerNotFound
  | bookNotFound
  | bookUnavailable
  | borrowingNotFound
  | alreadyReturned
  | validationFailure
  | storageFailure
deriving Repr, DecidableEq

/-- HTTP status code each error site responds with. -/
def ApiError.httpStatus : ApiError → Nat
  | .borrowerNotFound => 404
  | .bookNotFound => 404
  | .bookUnavailable => 400
  | .borrowingNotFound => 404
  | .alreadyReturned => 400
  | .validationFailure => 400
  | .storageFailure => 400

/-- Response body message of each error site. -/
def ApiError.message : ApiError → String
  | .borrowerNotFound => "Borrower not found"
  | .bookNotFound => "Book not found"
  | .bookUnavailable => "Book not available for checkout"
  | .borrowingNotFound => "Borrowing record not found"
  | .alreadyReturned => "Book has already been returned"
  | .validationFailure => "Validation failed"
  | .storageFailure => "Storage failure"

/-- Lookup `prisma.book.findUnique({ where: { id } })`. -/
def findBook (s : LibState) (id : Nat) : Option Book :=
  s.books.find? (fun b => b.id == id)

/-- Lookup `prisma.borrower.findUnique({ where: { id } })`. -/
def findBorrower (s : LibState) (id : Nat) : Option Borrower :=
  s.borrowers.find? (fun b => b.id == id)

/-- Lookup `prisma.borrowing.findUnique({ where: { id } })`. -/
def findBorrowing (s : LibState) (id : Nat) : Option Borrowing :=
  s.borrowings.find? (fun b => b.id == id)

/-- Number of open borrowings of book `bid`:
`|{ b ∈ Borrowings : b.bookId == bid ∧ b.returnDate == null }|`. -/
def openCount (s : LibState) (bid : Nat) : Nat :=
  s.borrowings.countP (fun br => br.bookId == bid && br.returnDate == none)

/-! ### Validators (zod schemas) -/

/-- Payload of `BookSchema` (`book.validator.ts`). -/
structure BookInput where
  title : String
  author : String
  isbn : String
  quantity : Int
  location : Option String
deriving Repr, DecidableEq

/-- Predicate for `BookSchema.parse` succeeding: nonempty `title`/`author`/`isbn`,
integer `quantity ≥ 0` (`z.number().int().min(0)`). -/
def BookInput.valid (i : BookInput) : Bool :=
  1 ≤ i.title.length && 1 ≤ i.author.length && 1 ≤ i.isbn.length
    && 0 ≤ i.quantity

/-- Payload of `BookSchema.partial()` as used by `updateBook`: every
field optional. -/
structure BookPatch where
  title : Option String
  author : Option String
  isbn : Option String
  quantity : Option Int
  location : Option (Option String)
deriving Repr, DecidableEq

/-- Predicate for the patch schema (every `BookSchema` rule made optional): each supplied field
satisfies its rule. -/
def BookPatch.valid (u : BookPatch) : Bool :=
  (match u.title with | some t => 1 ≤ t.length | none => true)
    && (match u.author with | some a => 1 ≤ a.length | none => true)
    && (match u.isbn with | some i => 1 ≤ i.length | none => true)
    && (match u.quantity with | some q => 0 ≤ q | none => true)

/-- Applying a `prisma.book.update` data object to a row.  When the
patch carries `quantity` the ghost `totalQuantity` follows it (the
spec reads an inventory update as mutating `totalQuantity`); the
stored column the code writes is `quantity`. -/
def Book.applyPatch (b : Book) (u : BookPatch) : Book :=
  { b with
    title := u.title.getD b.title
    author := u.author.getD b.author
    isbn := u.isbn.getD b.isbn
    quantity := u.quantity.getD b.quantity
    totalQuantity := u.quantity.getD b.totalQuantity
    location := u.location.getD b.location }

/-- Payload of `BorrowerSchema` (`borrower.validator.ts`). -/
structure BorrowerInput where
  name : String
  email : String
deriving Repr, DecidableEq

/-- Predicate for `BorrowerSchema.parse` succeeding: nonempty `name`, well-formed
`email`.  The exact `z.email()` pattern is abstracted to
"contains an `@`"; no claim depends on the pattern. -/
def BorrowerInput.valid (i : BorrowerInput) : Bool :=
  1 ≤ i.name.length && i.email.toList.contains '@'

/-- Raw JSON body of a checkout request.  Callers may include a
`dueDate` member; `BorrowingSchema` does not declare it. -/
structure CheckoutBody where
  bookId : Nat
  borrowerId : Nat
  dueDate : Option Int
deriving Repr, DecidableEq

/-- Validated checkout input: `BorrowingSchema` declares exactly
`bookId` and `borrowerId` (`borrowing.validator.ts`). -/
structure CheckoutInput where
  bookId : Nat
  borrowerId : Nat
deriving Repr, DecidableEq

/-- Validation `BorrowingSchema.parse`: a zod object strips members it does not
declare, so any caller-supplied `dueDate` is dropped. -/
def BorrowingSchema.parse (body : CheckoutBody) : CheckoutInput :=
  { bookId := body.bookId, borrowerId := body.borrowerId }

/-! ### Book and borrower CRUD (`book.controller.ts`,
`borrower.controller.ts`) -/

/-- Controller `addBook`: validate, then `prisma.book.create` (the unique index
on `isbn` makes a duplicate throw, caught as a 400). -/
def addBook (s : LibState) (i : BookInput) : Except ApiError (Book × LibState) :=
  if ¬ i.valid then .error .validationFailure
  else if s.books.any (fun b => b.isbn == i.isbn) then .error .validationFailure
  else
    let bk : Book :=
      { id := s.nextBookId, title := i.title, author := i.author,
        isbn := i.isbn, quantity := i.quantity, location := i.location,
        totalQuantity := i.quantity }
    .ok (bk, { s with books := s.books ++ [bk], nextBookId := s.nextBookId + 1 })

/-- Controller `updateBook`: validate the patch, then `prisma.book.update` on the
row (a missing row or duplicate `isbn` throws, caught as a 400). -/
def updateBook (s : LibState) (id : Nat) (u : BookPatch) :
    Except ApiError (Book × LibState) :=
  if ¬ u.valid then .error .validationFailure
  else
    match findBook s id with
    | none => .error .validationFailure
    | some bk =>
      let bk' := bk.applyPatch u
      if s.books.any (fun b => b.id != id && b.isbn == bk'.isbn) then
        .error .validationFailure
      else
        .ok (bk', { s with
          books := s.books.map (fun b => if b.id == id then bk' else b) })

/-- Controller `deleteBook`: `prisma.book.delete` with no guard; the schema's
`ON DELETE CASCADE` removes every Borrowing of the book.  A missing
row throws, caught as 404 "Book not found". -/
def deleteBook (s : LibState) (id : Nat) : Except ApiError LibState :=
  match findBook s id with
  | none => .error .bookNotFound
  | some _ =>
    .ok { s with
      books := s.books.filter (fun b => b.id != id),
      borrowings := s.borrowings.filter (fun br => br.bookId != id) }

/-- Controller `registerBorrower`: validate, then `prisma.borrower.create` (the
unique index on `email` makes a duplicate throw, caught as a 400). -/
def registerBorrower (s : LibState) (i : BorrowerInput) :
    Except ApiError (Borrower × LibState) :=
  if ¬ i.valid then .error .validationFailure
  else if s.borrowers.any (fun b => b.email == i.email) then .error .validationFailure
  else
    let bw : Borrower := { id := s.nextBorrowerId, name := i.name, email := i.email }
    .ok (bw, { s with borrowers := s.borrowers ++ [bw],
                      nextBorrowerId := s.nextBorrowerId + 1 })

/-- Controller `deleteBorrower`: `prisma.borrower.delete` with no guard; the
cascade removes every Borrowing of the borrower.  A missing row
throws, caught as 404 "Borrower not found". -/
def deleteBorrower (s : LibState) (id : Nat) : Except ApiError LibState :=
  match findBorrower s id with
  | none => .error .borrowerNotFound
  | some _ =>
    .ok { s with
      borrowers := s.borrowers.filter (fun b => b.id != id),
      borrowings := s.borrowings.filter (fun br => br.borrowerId != id) }

/-! ### Checkout (`borrowing.controller.ts`, `checkoutBook`)

The controller runs its precondition checks OUTSIDE the
`prisma.$transaction` block, against a `Book` row read before the
transaction starts, and the transaction body writes
`quantity: book.quantity - 1` using that earlier snapshot.  To keep
that structure visible (it decides the concurrency claim) the
controller is split exactly at the transaction boundary. -/

/-- Everything `checkoutBook` does before `prisma.$transaction`: the
borrower-existence, book-existence and availability checks, in that
order, returning the `Book` snapshot the transaction will use. -/
def checkoutChecks (s : LibState) (data : CheckoutInput) : Except ApiError Book :=
  match findBorrower s data.borrowerId with
  | none => .error .borrowerNotFound
  | some _ =>
    match findBook s data.bookId with
    | none => .error .bookNotFound
    | some book =>
      if book.quantity ≤ 0 then .error .bookUnavailable
      else .ok book

/-- The `prisma.$transaction` body of `checkoutBook`: write
`quantity := book.quantity - 1` (from the snapshot) and create the
Borrowing with `dueDate = addDays(new Date(), 14)`; `checkoutDate`
takes the column default `now` and `returnDate` is null. -/
def checkoutTxn (s : LibState) (data : CheckoutInput) (book : Book) (now : Int) :
    Borrowing × LibState :=
  let borrowing : Borrowing :=
    { id := s.nextBorrowingId, bookId := data.bookId,
      borrowerId := data.borrowerId, checkoutDate := now,
      dueDate := addDays now 14, returnDate := none }
  (borrowing,
    { s with
      books := s.books.map (fun b =>
        if b.id == data.bookId then { b with quantity := book.quantity - 1 } else b),
      borrowings := s.borrowings ++ [borrowing],
      nextBorrowingId := s.nextBorrowingId + 1 })

/-- Controller `checkoutBook` run to completion without interference: the checks
followed immediately by the transaction. -/
def checkoutBook (now : Int) (s : LibState) (data : CheckoutInput) :
    Except ApiError (Borrowing × LibState) :=
  match checkoutChecks s data with
  | .error e => .error e
  | .ok book => .ok (checkoutTxn s data book now)

/-! ### Return (`borrowing.controller.ts`, `returnBook`) -/

/-- The record `returnBook` responds with: the updated Borrowing with
`include: { book: true, borrower: true }`. -/
structure BorrowingJoined where
  borrowing : Borrowing
  book : Book
  borrower : Borrower
deriving Repr, DecidableEq

/-- Controller `returnBook`: 404 when the Borrowing is missing, 400 when its
`returnDate` is already set; otherwise one transaction writes
`quantity := borrowing.book.quantity + 1` and `returnDate := now` and
the updated joined record is returned.  The `include`d relations are
guaranteed by the foreign keys; a dangling reference would surface as
a thrown Prisma error. -/
def returnBook (now : Int) (s : LibState) (id : Nat) :
    Except ApiError (BorrowingJoined × LibState) :=
  match findBorrowing s id with
  | none => .error .borrowingNotFound
  | some borrowing =>
    if borrowing.returnDate.isSome then .error .alreadyReturned
    else
      match findBook s borrowing.bookId, findBorrower s borrowing.borrowerId with
      | some book, some borrower =>
        let book' := { book with quantity := book.quantity + 1 }
        let updated := { borrowing with returnDate := some now }
        let s' := { s with
          books := s.books.map (fun b => if b.id == borrowing.bookId then book' else b),
          borrowings := s.borrowings.map (fun b => if b.id == id then updated else b) }
        .ok (⟨updated, book', borrower⟩, s')
      | _, _ => .error .storageFailure

/-! ### Read-side queries -/

/-- Ordering used by `ORDER BY checkoutDate DESC` on borrowings. -/
def moreRecentFirst (a b : Borrowing) : Prop := b.checkoutDate ≤ a.checkoutDate

instance : DecidableRel moreRecentFirst := fun a b =>
  inferInstanceAs (Decidable (b.checkoutDate ≤ a.checkoutDate))

instance : IsTotal Borrowing moreRecentFirst :=
  ⟨fun a b => le_total b.checkoutDate a.checkoutDate⟩

instance : IsTrans Borrowing moreRecentFirst :=
  ⟨fun _ _ _ h1 h2 => le_trans h2 h1⟩

/-- Ordering used by `ORDER BY dueDate ASC` on borrowings. -/
def dueSoonestFirst (a b : Borrowing) : Prop := a.dueDate ≤ b.dueDate

instance : DecidableRel dueSoonestFirst := fun a b =>
  inferInstanceAs (Decidable (a.dueDate ≤ b.dueDate))

instance : IsTotal Borrowing dueSoonestFirst :=
  ⟨fun a b => le_total a.dueDate b.dueDate⟩

instance : IsTrans Borrowing dueSoonestFirst :=
  ⟨fun _ _ _ h1 h2 => le_trans h1 h2⟩

/-- Days overdue as computed by `getOverdueBooks`:
`Math.floor((now.getTime() - dueDate.getTime()) / (1000*60*60*24))`
(`Int.fdiv` is floor division, matching `Math.floor` of the real
quotient on integer inputs). -/
def daysOverdue (now due : Int) : Int := Int.fdiv (now - due) msPerDay

/-- Controller `getOverdueBooks`: the open borrowings with `dueDate < now`,
ordered by `dueDate` ascending, each paired with its `daysOverdue`. -/
def getOverdueBooks (now : Int) (s : LibState) : List (Borrowing × Int) :=
  let overdue := s.borrowings.filter
    (fun b => decide (b.dueDate < now) && b.returnDate == none)
  (overdue.insertionSort dueSoonestFirst).map
    (fun b => (b, daysOverdue now b.dueDate))

/-- Controller `getAllBorrowings`: `status === "active"` keeps the open
borrowings, `status === "returned"` the closed ones, and any other
value of the query parameter — including absence and `"overdue"` —
leaves the `where` condition empty; ordered by `checkoutDate`
descending. -/
def getAllBorrowings (s : LibState) (status : Option String) : List Borrowing :=
  let filtered :=
    if status == some "active" then
      s.borrowings.filter (fun b => b.returnDate == none)
    else if status == some "returned" then
      s.borrowings.filter (fun b => b.returnDate.isSome)
    else s.borrowings
  filtered.insertionSort moreRecentFirst

/-- The `getAllBorrowings` endpoint as a whole: its response list and
the store it leaves behind (the handler only reads). -/
def getAllBorrowingsEndpoint (s : LibState) (status : Option String) :
    List Borrowing × LibState :=
  (getAllBorrowings s status, s)

/-! ### Status resolution (`reports.controller.ts`) -/

/-- The resolved lifecycle status of a borrowing. -/
inductive BorrowStatus where
  | returned
  | overdue
  | active
deriving Repr, DecidableEq

/-- Modelled from the spec: the status resolver of §4.4 —
"returned" if `returnDate != null`, else "overdue" if
`dueDate < now`, else "active". -/
def specStatus (now : Int) (br : Borrowing) : BorrowStatus :=
  match br.returnDate with
  | some _ => .returned
  | none => if br.dueDate < now then .overdue else .active

/-- Status string of a row of `exportBorrowingsCSV`, translated from
the nested ternary
`returnDate ? "Returned" : dueDate < new Date() ? "Overdue" : "Active"`. -/
def csvStatus (now : Int) (br : Borrowing) : String :=
  if br.returnDate.isSome then "Returned"
  else if br.dueDate < now then "Overdue"
  else "Active"

/-- Rendering of a resolved status as the CSV export writes it. -/
def BorrowStatus.label : BorrowStatus → String
  | .returned => "Returned"
  | .overdue => "Overdue"
  | .active => "Active"

/-! ### Response serialization (for the shape of the `returnBook`
response) -/

/-- A JSON value, as far as the embedded responses need one. -/
inductive Json where
  | null
  | num (n : Int)
  | str (s : String)
  | obj (members : List (String × Json))

/-- Member names of a JSON object. -/
def Json.keys : Json → List String
  | .obj members => members.map Prod.fst
  | _ => []

/-- Serialization of a `Book` row as Prisma returns it (`createdAt`
and `updatedAt` are not modelled; the ghost `totalQuantity` is not a
column and is not serialized). -/
def Book.toJson (b : Book) : Json :=
  .obj [("id", .num b.id), ("title", .str b.title), ("author", .str b.author),
        ("isbn", .str b.isbn), ("quantity", .num b.quantity),
        ("location", match b.location with | some l => .str l | none => .null)]

/-- Serialization of a `Borrower` row. -/
def Borrower.toJson (b : Borrower) : Json :=
  .obj [("id", .num b.id), ("name", .str b.name), ("email", .str b.email)]

/-- Serialization of the record `returnBook` passes to `res.json`: the
Borrowing's own columns plus the two `include`d relations — and
nothing else. -/
def BorrowingJoined.toJson (j : BorrowingJoined) : Json :=
  .obj [("id", .num j.borrowing.id), ("bookId", .num j.borrowing.bookId),
        ("borrowerId", .num j.borrowing.borrowerId),
        ("checkoutDate", .num j.borrowing.checkoutDate),
        ("dueDate", .num j.borrowing.dueDate),
        ("returnDate", match j.borrowing.returnDate with
                       | some t => .num t | none => .null),
        ("book", j.book.toJson), ("borrower", j.borrower.toJson)]

/-! ### Reachability

States reachable by the engine's operations, starting from the
freshly migrated store.  A request whose controller answers with an
error leaves the store as it was, so only successful operations
produce new states. -/

/-- States reachable through book creation, borrower registration,
checkout and return. -/
inductive Reachable : LibState → Prop where
  | empty : Reachable emptyState
  | addBook {s i bk s'} : Reachable s →
      addBook s i = .ok (bk, s') → Reachable s'
  | registerBorrower {s i bw s'} : Reachable s →
      registerBorrower s i = .ok (bw, s') → Reachable s'
  | checkout {s now body br s'} : Reachable s →
      checkoutBook now s (BorrowingSchema.parse body) = .ok (br, s') → Reachable s'
  | returnB {s now id j s'} : Reachable s →
      returnBook now s id = .ok (j, s') → Reachable s'

/-- States reachable when `updateBook` is admitted as well (the claim
speaks of "book creation/update"). -/
inductive ReachableU : LibState → Prop where
  | empty : ReachableU emptyState
  | addBook {s i bk s'} : ReachableU s →
      addBook s i = .ok (bk, s') → ReachableU s'
  | updateBook {s id u bk s'} : ReachableU s →
      updateBook s id u = .ok (bk, s') → ReachableU s'
  | registerBorrower {s i bw s'} : ReachableU s →
      registerBorrower s i = .ok (bw, s') → ReachableU s'
  | checkout {s now body br s'} : ReachableU s →
      checkoutBook now s (BorrowingSchema.parse body) = .ok (br, s') → ReachableU s'
  | returnB {s now id j s'} : ReachableU s →
      returnBook now s id = .ok (j, s') → ReachableU s'

/-- Availability invariant of the spec, with `availableQuantity` read
as the stored `quantity` column and `totalQuantity` as the ghost field
inventory operations set: every book has
`0 ≤ availableQuantity ≤ totalQuantity` and
`availableQuantity = totalQuantity − openCount`. -/
def availInvariant (s : LibState) : Prop :=
  ∀ b ∈ s.books, 0 ≤ b.quantity ∧ b.quantity ≤ b.totalQuantity ∧
    b.quantity = b.totalQuantity - (openCount s b.id : Int)

instance (s : LibState) : Decidable (availInvariant s) :=
  inferInstanceAs (Decidable (∀ b ∈ s.books, _ ∧ _ ∧ _))

/-- Well-formedness the Postgres schema guarantees: primary keys are
below their sequences (hence fresh ids never collide), key columns are
duplicate-free, and foreign keys point at live rows. -/
def WF (s : LibState) : Prop :=
  (∀ b ∈ s.books, b.id < s.nextBookId) ∧
  (∀ br ∈ s.borrowings, br.id < s.nextBorrowingId) ∧
  (∀ br ∈ s.borrowings, ∃ b ∈ s.books, b.id = br.bookId) ∧
  (s.books.map Book.id).Nodup ∧
  (s.borrowings.map Borrowing.id).Nodup

instance (s : LibState) : Decidable (WF s) := by
  unfold WF; infer_instance

/-! ### Endpoint step functions and concrete fixtures -/

/-- Store left behind by the checkout endpoint: the transaction's
result on success, the untouched store when the controller answered
with an error. -/
def checkoutEndpointState (now : Int) (s : LibState) (body : CheckoutBody) : LibState :=
  match checkoutBook now s (BorrowingSchema.parse body) with
  | .ok (_, s') => s'
  | .error _ => s

/-- Store left behind by the return endpoint. -/
def returnEndpointState (now : Int) (s : LibState) (id : Nat) : LibState :=
  match returnBook now s id with
  | .ok (_, s') => s'
  | .error _ => s

/-- A catalog book (one copy, currently out). -/
def demoBook : Book :=
  { id := 1, title := "Dune", author := "Herbert", isbn := "9780441172719",
    quantity := 0, location := none, totalQuantity := 1 }

/-- A registered borrower. -/
def demoBorrower : Borrower :=
  { id := 1, name := "Ada", email := "ada@example.com" }

/-- An open borrowing of `demoBook` by `demoBorrower`. -/
def demoOpenBorrowing : Borrowing :=
  { id := 1, bookId := 1, borrowerId := 1, checkoutDate := 0,
    dueDate := addDays 0 14, returnDate := none }

/-- A store in which `demoBook`'s one copy is checked out. -/
def demoState : LibState :=
  { books := [demoBook], borrowers := [demoBorrower],
    borrowings := [demoOpenBorrowing],
    nextBookId := 2, nextBorrowerId := 2, nextBorrowingId := 2 }

/-- A store in which `demoBook` has its one copy on the shelf. -/
def stockedState : LibState :=
  { books := [{ demoBook with quantity := 1 }], borrowers := [demoBorrower],
    borrowings := [],
    nextBookId := 2, nextBorrowerId := 2, nextBorrowingId := 1 }


/-- The store after two concurrent checkouts of `stockedState`'s last
copy are interleaved as: check₁, check₂, transaction₁, transaction₂ —
the schedule in which each request's availability check runs against
the pre-transaction snapshot, as `checkoutBook` reads it, before
either transaction commits. -/
def raceState : LibState :=
  (checkoutTxn (checkoutTxn stockedState ⟨1, 1⟩ { demoBook with quantity := 1 } 0).2
    ⟨1, 1⟩ { demoBook with quantity := 1 } 0).2

/-- The store after the book is created with one copy. -/
def afterAddBook : LibState :=
  { books := [{ demoBook with quantity := 1 }], borrowers := [],
    borrowings := [], nextBookId := 2, nextBorrowerId := 1, nextBorrowingId := 1 }

/-- The store after the borrower is registered as well. -/
def afterRegister : LibState :=
  { afterAddBook with borrowers := [demoBorrower], nextBorrowerId := 2 }

/-- The inventory patch `{ quantity: 3 }`. -/
def restockPatch : BookPatch :=
  { title := none, author := none, isbn := none, quantity := some 3, location := none }

/-- The store `demoState` after `updateBook 1 { quantity: 3 }`: the stored count
is 3 while one borrowing is still open. -/
def c1BadState : LibState :=
  { books := [{ demoBook with quantity := 3, totalQuantity := 3 }],
    borrowers := [demoBorrower], borrowings := [demoOpenBorrowing],
    nextBookId := 2, nextBorrowerId := 2, nextBorrowingId := 2 }


/-! ### Helper lemmas -/

/-- Elements of a list with duplicate-free keys are determined by
their key. -/
theorem eq_of_nodup_key {α : Type} {key : α → Nat} {l : List α}
    (hnd : (l.map key).Nodup) {a b : α} (ha : a ∈ l) (hb : b ∈ l)
    (hk : key a = key b) : a = b :=
  List.inj_on_of_nodup_map hnd ha hb hk

/-- Lookup by key commutes with a map that preserves keys. -/
theorem find?_key_map {α : Type} (key : α → Nat) (f : α → α) (l : List α) (i : Nat)
    (hf : ∀ a, key (f a) = key a) :
    (l.map f).find? (fun a => key a == i) = (l.find? (fun a => key a == i)).map f := by
  rw [List.find?_map]
  have hcomp : ((fun a => key a == i) ∘ f) = (fun a => key a == i) := by
    funext a
    simp [Function.comp, hf]
  rw [hcomp]

/-- A found element has the key it was looked up by. -/
theorem key_of_find? {α : Type} (key : α → Nat) {l : List α} {i : Nat} {a : α}
    (h : l.find? (fun x => key x == i) = some a) : key a = i := by
  have := List.find?_some h
  simpa using this

/-- Lookup in a list extended on the right by an element whose key no
existing element carries. -/
theorem find?_append_fresh {α : Type} (key : α → Nat) {l : List α} {x : α} {i : Nat}
    (hfresh : ∀ a ∈ l, key a ≠ i) :
    (l ++ [x]).find? (fun a => key a == i)
      = if key x = i then some x else none := by
  rw [List.find?_append]
  have hnone : l.find? (fun a => key a == i) = none := by
    refine List.find?_eq_none.mpr ?_
    intro a ha
    simpa using hfresh a ha
  rw [hnone]
  simp only [Option.none_or]
  by_cases hx : key x = i
  · rw [List.find?_cons, show (key x == i) = true by simpa using hx]
    simp [hx]
  · rw [List.find?_cons, show (key x == i) = false by simpa using hx]
    simp [hx]

/-- Counting after replacing the unique element of key `i` by a fixed
element: the replaced element leaves the count, the replacement
enters it. -/
theorem countP_map_replace {α : Type} (key : α → Nat) (q : α → Bool)
    (l : List α) (i : Nat) (c : α) :
    ∀ {a0 : α}, (l.map key).Nodup → l.find? (fun x => key x == i) = some a0 →
    (l.map (fun x => if key x == i then c else x)).countP q
        + (if q a0 then 1 else 0)
      = l.countP q + (if q c then 1 else 0) := by
  induction l with
  | nil =>
    intro a0 _ hfind
    simp at hfind
  | cons a l ih =>
    intro a0 hnd hfind
    rw [List.map_cons] at hnd
    obtain ⟨hna, hnd'⟩ := List.nodup_cons.mp hnd
    by_cases hk : key a = i
    · have ha0 : a0 = a := by
        rw [List.find?_cons, show (key a == i) = true by simpa using hk] at hfind
        exact (Option.some.injEq _ _ ▸ hfind).symm
      subst ha0
      have hmapid : l.map (fun x => if key x == i then c else x)
          = l.map (fun x => x) := by
        apply List.map_congr_left
        intro b hb
        have hbk : key b ≠ i := by
          intro hcontra
          exact hna (List.mem_map.mpr ⟨b, hb, by rw [hcontra, hk]⟩)
        simp [hbk]
      rw [List.map_cons, if_pos (by simpa using hk), hmapid, List.map_id',
          List.countP_cons, List.countP_cons]
      omega
    · have hfind' : l.find? (fun x => key x == i) = some a0 := by
        rwa [List.find?_cons, show (key a == i) = false by simpa using hk] at hfind
      have hrec := ih hnd' hfind'
      rw [List.map_cons, if_neg (by simpa using hk), List.countP_cons, List.countP_cons]
      omega

/-! ### Inversion lemmas for the mutating operations -/

/-- What a successful `addBook` did. -/
theorem addBook_ok {s : LibState} {i : BookInput} {bk : Book} {s' : LibState}
    (h : addBook s i = .ok (bk, s')) :
    i.valid = true ∧
    bk = { id := s.nextBookId, title := i.title, author := i.author,
           isbn := i.isbn, quantity := i.quantity, location := i.location,
           totalQuantity := i.quantity } ∧
    s' = { s with books := s.books ++ [bk], nextBookId := s.nextBookId + 1 } := by
  unfold addBook at h
  split at h
  · exact absurd h (by simp)
  · split at h
    · exact absurd h (by simp)
    · rename_i hvalid _
      simp only [Except.ok.injEq, Prod.mk.injEq] at h
      obtain ⟨hbk, hs⟩ := h
      refine ⟨by simpa using hvalid, hbk.symm, ?_⟩
      rw [← hs, hbk]

/-- What a successful `registerBorrower` did. -/
theorem registerBorrower_ok {s : LibState} {i : BorrowerInput} {bw : Borrower} {s' : LibState}
    (h : registerBorrower s i = .ok (bw, s')) :
    bw = { id := s.nextBorrowerId, name := i.name, email := i.email } ∧
    s' = { s with borrowers := s.borrowers ++ [bw],
                  nextBorrowerId := s.nextBorrowerId + 1 } := by
  unfold registerBorrower at h
  split at h
  · exact absurd h (by simp)
  · split at h
    · exact absurd h (by simp)
    · simp only [Except.ok.injEq, Prod.mk.injEq] at h
      obtain ⟨hbw, hs⟩ := h
      refine ⟨hbw.symm, ?_⟩
      rw [← hs, hbw]

/-- What a successful `checkoutChecks` established. -/
theorem checkoutChecks_ok {s : LibState} {data : CheckoutInput} {book : Book}
    (h : checkoutChecks s data = .ok book) :
    (findBorrower s data.borrowerId).isSome ∧
    findBook s data.bookId = some book ∧ 0 < book.quantity := by
  unfold checkoutChecks at h
  split at h
  · exact absurd h (by simp)
  · rename_i bw hbw
    split at h
    · exact absurd h (by simp)
    · rename_i bk hbk
      split at h
      · exact absurd h (by simp)
      · rename_i hq
        simp only [Except.ok.injEq] at h
        subst h
        exact ⟨by simp [hbw], hbk, by omega⟩

/-- What a successful `checkoutBook` checked and did. -/
theorem checkoutBook_ok {now : Int} {s : LibState} {data : CheckoutInput}
    {br : Borrowing} {s' : LibState}
    (h : checkoutBook now s data = .ok (br, s')) :
    ∃ book, (findBorrower s data.borrowerId).isSome ∧
      findBook s data.bookId = some book ∧
      0 < book.quantity ∧
      br = { id := s.nextBorrowingId, bookId := data.bookId,
             borrowerId := data.borrowerId, checkoutDate := now,
             dueDate := addDays now 14, returnDate := none } ∧
      s' = { s with
        books := s.books.map (fun b =>
          if b.id == data.bookId then { b with quantity := book.quantity - 1 } else b),
        borrowings := s.borrowings ++ [br],
        nextBorrowingId := s.nextBorrowingId + 1 } := by
  unfold checkoutBook at h
  split at h
  · exact absurd h (by simp)
  · rename_i book hchecks
    obtain ⟨h1, h2, h3⟩ := checkoutChecks_ok hchecks
    rw [checkoutTxn] at h
    simp only [Except.ok.injEq, Prod.mk.injEq] at h
    obtain ⟨hbr, hs⟩ := h
    exact ⟨book, h1, h2, h3, hbr.symm, by rw [← hs, hbr]⟩

/-- What a successful `returnBook` checked and did. -/
theorem returnBook_ok {now : Int} {s : LibState} {id : Nat}
    {j : BorrowingJoined} {s' : LibState}
    (h : returnBook now s id = .ok (j, s')) :
    ∃ br book bw,
      findBorrowing s id = some br ∧ br.returnDate = none ∧
      findBook s br.bookId = some book ∧
      findBorrower s br.borrowerId = some bw ∧
      j = ⟨{ br with returnDate := some now },
           { book with quantity := book.quantity + 1 }, bw⟩ ∧
      s' = { s with
        books := s.books.map (fun b =>
          if b.id == br.bookId then { book with quantity := book.quantity + 1 } else b),
        borrowings := s.borrowings.map (fun b =>
          if b.id == id then { br with returnDate := some now } else b) } := by
  unfold returnBook at h
  split at h
  · exact absurd h (by simp)
  · rename_i br hbr
    split at h
    · exact absurd h (by simp)
    · rename_i hret
      split at h
      · rename_i book bw hbook hbw
        simp only [Except.ok.injEq, Prod.mk.injEq] at h
        obtain ⟨hj, hs⟩ := h
        exact ⟨br, book, bw, hbr, by simpa using hret, hbook, hbw, hj.symm, hs.symm⟩
      · exact absurd h (by simp)

/-! ### Preservation of well-formedness and the availability
invariant -/

theorem step_addBook {s : LibState} {i : BookInput} {bk : Book} {s' : LibState}
    (hwf : WF s) (hinv : availInvariant s)
    (h : addBook s i = .ok (bk, s')) : WF s' ∧ availInvariant s' := by
  obtain ⟨hvalid, hbk, hs⟩ := addBook_ok h
  obtain ⟨wf1, wf2, wf3, wf4, wf5⟩ := hwf
  have hq : (0 : Int) ≤ i.quantity := by
    simp only [BookInput.valid, Bool.and_eq_true, decide_eq_true_eq] at hvalid
    exact hvalid.2
  have hbkid : bk.id = s.nextBookId := by rw [hbk]
  have hbkq : bk.quantity = i.quantity := by rw [hbk]
  have hbkt : bk.totalQuantity = i.quantity := by rw [hbk]
  have hfresh : ∀ br ∈ s.borrowings, br.bookId ≠ s.nextBookId := by
    intro br hbr
    obtain ⟨b, hbmem, hbid⟩ := wf3 br hbr
    rw [← hbid]
    exact Nat.ne_of_lt (wf1 b hbmem)
  have hopen0 : openCount s' bk.id = 0 := by
    rw [hs]
    refine List.countP_eq_zero.mpr ?_
    intro br hbr
    simp only [Bool.and_eq_true, beq_iff_eq]
    rintro ⟨hid, -⟩
    exact hfresh br hbr (hbkid ▸ hid)
  subst hs
  constructor
  · refine ⟨?_, ?_, ?_, ?_, ?_⟩
    · intro b hb
      rcases List.mem_append.mp hb with hb | hb
      · exact Nat.lt_succ_of_lt (wf1 b hb)
      · simp only [List.mem_singleton] at hb
        subst hb
        show b.id < s.nextBookId + 1
        omega
    · exact wf2
    · intro br hbr
      obtain ⟨b, hbmem, hbid⟩ := wf3 br hbr
      exact ⟨b, List.mem_append.mpr (Or.inl hbmem), hbid⟩
    · rw [List.map_append, List.nodup_append]
      refine ⟨wf4, by simp, ?_⟩
      intro x hx hy
      have hxeq : x = bk.id := by simpa using hy
      obtain ⟨b, hbmem, hbid⟩ := List.mem_map.mp hx
      have := wf1 b hbmem
      omega
    · exact wf5
  · intro b hb
    rcases List.mem_append.mp hb with hb | hb
    · exact hinv b hb
    · simp only [List.mem_singleton] at hb
      subst hb
      refine ⟨by rw [hbkq]; exact hq, by rw [hbkq, hbkt], ?_⟩
      rw [hbkq, hbkt, hopen0]
      simp

theorem step_registerBorrower {s : LibState} {i : BorrowerInput} {bw : Borrower}
    {s' : LibState} (hwf : WF s) (hinv : availInvariant s)
    (h : registerBorrower s i = .ok (bw, s')) : WF s' ∧ availInvariant s' := by
  obtain ⟨hbw, hs⟩ := registerBorrower_ok h
  subst hs
  exact ⟨hwf, hinv⟩

/-- A found book is a member with the key looked up. -/
theorem findBook_mem {s : LibState} {i : Nat} {b : Book}
    (h : findBook s i = some b) : b ∈ s.books ∧ b.id = i :=
  ⟨List.mem_of_find?_eq_some h, key_of_find? Book.id h⟩

/-- A found borrowing is a member with the key looked up. -/
theorem findBorrowing_mem {s : LibState} {i : Nat} {b : Borrowing}
    (h : findBorrowing s i = some b) : b ∈ s.borrowings ∧ b.id = i :=
  ⟨List.mem_of_find?_eq_some h, key_of_find? Borrowing.id h⟩

theorem step_checkout {now : Int} {s : LibState} {data : CheckoutInput}
    {br : Borrowing} {s' : LibState}
    (hwf : WF s) (hinv : availInvariant s)
    (h : checkoutBook now s data = .ok (br, s')) : WF s' ∧ availInvariant s' := by
  obtain ⟨book, hbw, hbook, hqpos, hbr, hs⟩ := checkoutBook_ok h
  obtain ⟨wf1, wf2, wf3, wf4, wf5⟩ := hwf
  obtain ⟨hbookmem, hbookid⟩ := findBook_mem hbook
  have hbrid : br.id = s.nextBorrowingId := by rw [hbr]
  have hbrbook : br.bookId = data.bookId := by rw [hbr]
  have hbropen : br.returnDate = none := by rw [hbr]
  have hfid : ∀ b : Book,
      (if b.id == data.bookId then { b with quantity := book.quantity - 1 } else b).id
        = b.id := by
    intro b
    by_cases hb : b.id = data.bookId <;> simp [hb]
  have hsbooks : s'.books = s.books.map (fun b =>
      if b.id == data.bookId then { b with quantity := book.quantity - 1 } else b) := by
    rw [hs]
  have hsborrow : s'.borrowings = s.borrowings ++ [br] := by rw [hs]
  have hsnb : s'.nextBookId = s.nextBookId := by rw [hs]
  have hsnw : s'.nextBorrowerId = s.nextBorrowerId := by rw [hs]
  have hsnbr : s'.nextBorrowingId = s.nextBorrowingId + 1 := by rw [hs]
  have hoc : ∀ bid, openCount s' bid
      = openCount s bid + if (br.bookId == bid && br.returnDate == none) then 1 else 0 := by
    intro bid
    unfold openCount
    rw [hsborrow, List.countP_append, List.countP_cons]
    simp only [List.countP_nil, Nat.zero_add]
  constructor
  · refine ⟨?_, ?_, ?_, ?_, ?_⟩
    · intro b hb
      rw [hsbooks] at hb
      obtain ⟨b0, hb0, hfb⟩ := List.mem_map.mp hb
      have hbid : b.id = b0.id := by rw [← hfb]; exact hfid b0
      rw [hbid, hsnb]
      exact wf1 b0 hb0
    · intro x hx
      rw [hsborrow] at hx
      rw [hsnbr]
      rcases List.mem_append.mp hx with hx | hx
      · exact Nat.lt_succ_of_lt (wf2 x hx)
      · simp only [List.mem_singleton] at hx
        subst hx
        omega
    · intro x hx
      rw [hsborrow] at hx
      rw [hsbooks]
      rcases List.mem_append.mp hx with hx | hx
      · obtain ⟨b, hbmem, hbid⟩ := wf3 x hx
        refine ⟨_, List.mem_map.mpr ⟨b, hbmem, rfl⟩, ?_⟩
        rw [hfid b]
        exact hbid
      · simp only [List.mem_singleton] at hx
        subst hx
        refine ⟨_, List.mem_map.mpr ⟨book, hbookmem, rfl⟩, ?_⟩
        rw [hfid book, hbookid, hbrbook]
    · rw [hsbooks, List.map_map]
      have : (Book.id ∘ fun b =>
          if b.id == data.bookId then { b with quantity := book.quantity - 1 } else b)
          = Book.id := by
        funext b
        exact hfid b
      rw [this]
      exact wf4
    · rw [hsborrow, List.map_append, List.nodup_append]
      refine ⟨wf5, by simp, ?_⟩
      intro x hx hy
      have hxeq : x = br.id := by simpa using hy
      obtain ⟨b, hbmem, hbid⟩ := List.mem_map.mp hx
      have := wf2 b hbmem
      omega
  · intro b hb
    rw [hsbooks] at hb
    obtain ⟨b0, hb0, hfb⟩ := List.mem_map.mp hb
    by_cases hcase : b0.id = data.bookId
    · have hb0book : b0 = book := eq_of_nodup_key wf4 hb0 hbookmem (by rw [hcase, hbookid])
      have hfb' : b = { book with quantity := book.quantity - 1 } := by
        rw [← hfb, hb0book, if_pos (by simp [hbookid])]
      subst hfb'
      obtain ⟨h1, h2, h3⟩ := hinv book hbookmem
      refine ⟨by show (0:Int) ≤ book.quantity - 1; omega,
              by show book.quantity - 1 ≤ book.totalQuantity; omega, ?_⟩
      show book.quantity - 1 = book.totalQuantity - (openCount s' book.id : Int)
      rw [hoc book.id,
          show (br.bookId == book.id && br.returnDate == none) = true by
            simp [hbrbook, hbropen, hbookid]]
      simp only [if_pos]
      push_cast
      omega
    · have hfb' : b = b0 := by
        rw [← hfb, if_neg (by simpa using hcase)]
      subst hfb'
      obtain ⟨h1, h2, h3⟩ := hinv b hb0
      refine ⟨h1, h2, ?_⟩
      rw [hoc b.id,
          show (br.bookId == b.id && br.returnDate == none) = false by
            simp [hbrbook]
            intro hcontra
            exact absurd hcontra.symm hcase]
      simpa using h3

theorem step_returnBook {now : Int} {s : LibState} {id : Nat}
    {j : BorrowingJoined} {s' : LibState}
    (hwf : WF s) (hinv : availInvariant s)
    (h : returnBook now s id = .ok (j, s')) : WF s' ∧ availInvariant s' := by
  obtain ⟨br, book, bw, hbrfind, hbropen, hbook, hbw, hj, hs⟩ := returnBook_ok h
  obtain ⟨wf1, wf2, wf3, wf4, wf5⟩ := hwf
  obtain ⟨hbrmem, hbrid⟩ := findBorrowing_mem hbrfind
  obtain ⟨hbookmem, hbookid⟩ := findBook_mem hbook
  have hfidB : ∀ b : Book,
      (if b.id == br.bookId then { book with quantity := book.quantity + 1 } else b).id
        = b.id := by
    intro b
    by_cases hb : b.id = br.bookId
    · simp [hb, hbookid]
    · simp [hb]
  have hfidR : ∀ x : Borrowing,
      (if x.id == id then { br with returnDate := some now } else x).id = x.id := by
    intro x
    by_cases hx : x.id = id
    · simp [hx, hbrid]
    · simp [hx]
  have hsbooks : s'.books = s.books.map (fun b =>
      if b.id == br.bookId then { book with quantity := book.quantity + 1 } else b) := by
    rw [hs]
  have hsborrow : s'.borrowings = s.borrowings.map (fun x =>
      if x.id == id then { br with returnDate := some now } else x) := by
    rw [hs]
  have hsnb : s'.nextBookId = s.nextBookId := by rw [hs]
  have hsnbr : s'.nextBorrowingId = s.nextBorrowingId := by rw [hs]
  have hoc : ∀ bid, openCount s' bid + (if br.bookId == bid then 1 else 0)
      = openCount s bid := by
    intro bid
    unfold openCount
    rw [hsborrow]
    have := countP_map_replace Borrowing.id
      (fun x => x.bookId == bid && x.returnDate == none)
      s.borrowings id ({ br with returnDate := some now }) wf5 hbrfind
    rw [show (fun x : Borrowing => x.bookId == bid && x.returnDate == none)
          ({ br with returnDate := some now }) = false by simp] at this
    rw [show (fun x : Borrowing => x.bookId == bid && x.returnDate == none) br
          = (br.bookId == bid) by simp [hbropen]] at this
    simpa using this
  constructor
  · refine ⟨?_, ?_, ?_, ?_, ?_⟩
    · intro b hb
      rw [hsbooks] at hb
      rw [hsnb]
      obtain ⟨b0, hb0, hfb⟩ := List.mem_map.mp hb
      have hbid : b.id = b0.id := by rw [← hfb]; exact hfidB b0
      rw [hbid]
      exact wf1 b0 hb0
    · intro x hx
      rw [hsborrow] at hx
      rw [hsnbr]
      obtain ⟨x0, hx0, hfx⟩ := List.mem_map.mp hx
      have hxid : x.id = x0.id := by rw [← hfx]; exact hfidR x0
      rw [hxid]
      exact wf2 x0 hx0
    · intro x hx
      rw [hsborrow] at hx
      rw [hsbooks]
      obtain ⟨x0, hx0, hfx⟩ := List.mem_map.mp hx
      by_cases hxc : x0.id = id
      · have hx' : x = { br with returnDate := some now } := by
          rw [← hfx, if_pos (by simpa using hxc)]
        refine ⟨_, List.mem_map.mpr ⟨book, hbookmem, rfl⟩, ?_⟩
        rw [hfidB book, hbookid, hx']
      · have hx' : x = x0 := by rw [← hfx, if_neg (by simpa using hxc)]
        subst hx'
        obtain ⟨b, hbmem, hbid⟩ := wf3 x hx0
        refine ⟨_, List.mem_map.mpr ⟨b, hbmem, rfl⟩, ?_⟩
        rw [hfidB b]
        exact hbid
    · rw [hsbooks, List.map_map]
      have : (Book.id ∘ fun b =>
          if b.id == br.bookId then { book with quantity := book.quantity + 1 } else b)
          = Book.id := by
        funext b
        exact hfidB b
      rw [this]
      exact wf4
    · rw [hsborrow, List.map_map]
      have : (Borrowing.id ∘ fun x =>
          if x.id == id then { br with returnDate := some now } else x)
          = Borrowing.id := by
        funext x
        exact hfidR x
      rw [this]
      exact wf5
  · intro b hb
    rw [hsbooks] at hb
    obtain ⟨b0, hb0, hfb⟩ := List.mem_map.mp hb
    by_cases hcase : b0.id = br.bookId
    · have hb0book : b0 = book := eq_of_nodup_key wf4 hb0 hbookmem (by rw [hcase, hbookid])
      have hfb' : b = { book with quantity := book.quantity + 1 } := by
        rw [← hfb, if_pos (by simpa using hcase)]
      subst hfb'
      obtain ⟨h1, h2, h3⟩ := hinv book hbookmem
      have hocb := hoc book.id
      rw [show (br.bookId == book.id) = true by simp [hbookid]] at hocb
      simp only [if_true] at hocb
      refine ⟨by show (0:Int) ≤ book.quantity + 1; omega, ?_, ?_⟩
      · show book.quantity + 1 ≤ book.totalQuantity
        omega
      · show book.quantity + 1 = book.totalQuantity - (openCount s' book.id : Int)
        omega
    · have hfb' : b = b0 := by rw [← hfb, if_neg (by simpa using hcase)]
      subst hfb'
      obtain ⟨h1, h2, h3⟩ := hinv b hb0
      have hocb := hoc b.id
      rw [show (br.bookId == b.id) = false by
            simp
            intro hcontra
            exact absurd hcontra.symm hcase] at hocb
      refine ⟨h1, h2, ?_⟩
      rw [show openCount s' b.id = openCount s b.id by simpa using hocb]
      exact h3

/-- What a successful `updateBook` checked and did. -/
theorem updateBook_ok {s : LibState} {id : Nat} {u : BookPatch} {bk' : Book}
    {s' : LibState} (h : updateBook s id u = .ok (bk', s')) :
    u.valid = true ∧ ∃ bk, findBook s id = some bk ∧ bk' = bk.applyPatch u ∧
      s' = { s with books := s.books.map (fun b => if b.id == id then bk' else b) } := by
  unfold updateBook at h
  split at h
  · exact absurd h (by simp)
  · rename_i hvalid
    split at h
    · exact absurd h (by simp)
    · rename_i bk hbk
      simp only [] at h
      split at h
      · exact absurd h (by simp)
      · simp only [Except.ok.injEq, Prod.mk.injEq] at h
        obtain ⟨hb, hs⟩ := h
        exact ⟨by simpa using hvalid, bk, hbk, hb.symm, by rw [← hs, ← hb]⟩

/-- Quantities stay nonnegative across every engine operation,
`updateBook` included. -/
theorem nonneg_step_updateBook {s : LibState} {id : Nat} {u : BookPatch}
    {bk' : Book} {s' : LibState}
    (hnn : ∀ b ∈ s.books, 0 ≤ b.quantity)
    (h : updateBook s id u = .ok (bk', s')) : ∀ b ∈ s'.books, 0 ≤ b.quantity := by
  obtain ⟨hvalid, bk, hbk, hb, hs⟩ := updateBook_ok h
  obtain ⟨hbkmem, -⟩ := findBook_mem hbk
  intro b hbmem
  rw [hs] at hbmem
  obtain ⟨b0, hb0, hfb⟩ := List.mem_map.mp hbmem
  by_cases hc : b0.id = id
  · rw [← hfb, if_pos (by simpa using hc), hb]
    show (0:Int) ≤ Book.quantity (bk.applyPatch u)
    show (0:Int) ≤ u.quantity.getD bk.quantity
    cases hq : u.quantity with
    | none => simpa using hnn bk hbkmem
    | some q =>
      simp only [Option.getD_some]
      simp only [BookPatch.valid, Bool.and_eq_true] at hvalid
      have := hvalid.2
      rw [hq] at this
      simpa using this
  · rw [← hfb, if_neg (by simpa using hc)]
    exact hnn b0 hb0

theorem nonneg_step_addBook {s : LibState} {i : BookInput} {bk : Book} {s' : LibState}
    (hnn : ∀ b ∈ s.books, 0 ≤ b.quantity)
    (h : addBook s i = .ok (bk, s')) : ∀ b ∈ s'.books, 0 ≤ b.quantity := by
  obtain ⟨hvalid, hbk, hs⟩ := addBook_ok h
  intro b hbmem
  rw [hs] at hbmem
  rcases List.mem_append.mp hbmem with hb | hb
  · exact hnn b hb
  · simp only [List.mem_singleton] at hb
    subst hb
    rw [hbk]
    show (0:Int) ≤ i.quantity
    simp only [BookInput.valid, Bool.and_eq_true, decide_eq_true_eq] at hvalid
    exact hvalid.2

theorem nonneg_step_checkout {now : Int} {s : LibState} {data : CheckoutInput}
    {br : Borrowing} {s' : LibState}
    (hnn : ∀ b ∈ s.books, 0 ≤ b.quantity)
    (h : checkoutBook now s data = .ok (br, s')) : ∀ b ∈ s'.books, 0 ≤ b.quantity := by
  obtain ⟨book, hbw, hbook, hqpos, hbr, hs⟩ := checkoutBook_ok h
  intro b hbmem
  rw [hs] at hbmem
  obtain ⟨b0, hb0, hfb⟩ := List.mem_map.mp hbmem
  by_cases hc : b0.id = data.bookId
  · rw [← hfb, if_pos (by simpa using hc)]
    show (0:Int) ≤ book.quantity - 1
    omega
  · rw [← hfb, if_neg (by simpa using hc)]
    exact hnn b0 hb0

theorem nonneg_step_returnBook {now : Int} {s : LibState} {id : Nat}
    {j : BorrowingJoined} {s' : LibState}
    (hnn : ∀ b ∈ s.books, 0 ≤ b.quantity)
    (h : returnBook now s id = .ok (j, s')) : ∀ b ∈ s'.books, 0 ≤ b.quantity := by
  obtain ⟨br, book, bw, hbrfind, hbropen, hbook, hbw, hj, hs⟩ := returnBook_ok h
  obtain ⟨hbookmem, -⟩ := findBook_mem hbook
  intro b hbmem
  rw [hs] at hbmem
  obtain ⟨b0, hb0, hfb⟩ := List.mem_map.mp hbmem
  by_cases hc : b0.id = br.bookId
  · rw [← hfb, if_pos (by simpa using hc)]
    show (0:Int) ≤ book.quantity + 1
    have := hnn book hbookmem
    omega
  · rw [← hfb, if_neg (by simpa using hc)]
    exact hnn b0 hb0

/-- Every state reachable without `updateBook` is well-formed and
satisfies the availability invariant. -/
theorem reachable_wf_inv {s : LibState} (h : Reachable s) :
    WF s ∧ availInvariant s := by
  induction h with
  | empty => exact ⟨by decide, by decide⟩
  | addBook _ hok ih => exact step_addBook ih.1 ih.2 hok
  | registerBorrower _ hok ih => exact step_registerBorrower ih.1 ih.2 hok
  | checkout _ hok ih => exact step_checkout ih.1 ih.2 hok
  | returnB _ hok ih => exact step_returnBook ih.1 ih.2 hok

/-- Every state reachable with `updateBook` admitted still has only
nonnegative quantities. -/
theorem reachableU_nonneg {s : LibState} (h : ReachableU s) :
    ∀ b ∈ s.books, 0 ≤ b.quantity := by
  induction h with
  | empty => intro b hb; simp [emptyState] at hb
  | addBook _ hok ih => exact nonneg_step_addBook ih hok
  | updateBook _ hok ih => exact nonneg_step_updateBook ih hok
  | registerBorrower _ hok ih =>
    intro b hb
    obtain ⟨-, hs⟩ := registerBorrower_ok hok
    rw [hs] at hb
    exact ih b hb
  | checkout _ hok ih => exact nonneg_step_checkout ih hok
  | returnB _ hok ih => exact nonneg_step_returnBook ih hok

/-! ### Claim theorems -/

/-- C2 counterexample: the delete endpoints do NOT reject a target
with an open borrowing.  `demoState` has one open borrowing of book 1
by borrower 1, yet `deleteBook 1` succeeds (no
`Conflict(HasActiveBorrowings)`) and removes the borrowing with the
book, and `deleteBorrower 1` likewise succeeds and removes the
borrowing with the borrower. -/
theorem c2_deletion_guard_counterexample :
    (deleteBook demoState 1
      = .ok { demoState with books := [], borrowings := [] }) ∧
    (deleteBorrower demoState 1
      = .ok { demoState with borrowers := [], borrowings := [] }) ∧
    openCount demoState 1 = 1 := by
  refine ⟨?_, ?_, by decide⟩ <;> rfl

/-- C2 (amended): `deleteBook` and `deleteBorrower` delete
unconditionally — there is no active-borrowings guard.  When the
target exists the operation succeeds and the cascade removes every
Borrowing referencing it (open or not); only a missing target is
rejected, with 404. -/
theorem c2_delete_cascades (s : LibState) (id : Nat) :
    ((findBook s id).isSome →
      deleteBook s id = .ok { s with
        books := s.books.filter (fun b => b.id != id),
        borrowings := s.borrowings.filter (fun br => br.bookId != id) }) ∧
    (findBook s id = none → deleteBook s id = .error .bookNotFound) ∧
    ((findBorrower s id).isSome →
      deleteBorrower s id = .ok { s with
        borrowers := s.borrowers.filter (fun b => b.id != id),
        borrowings := s.borrowings.filter (fun br => br.borrowerId != id) }) ∧
    (findBorrower s id = none → deleteBorrower s id = .error .borrowerNotFound) := by
  refine ⟨?_, ?_, ?_, ?_⟩
  · intro h
    obtain ⟨b, hb⟩ := Option.isSome_iff_exists.mp h
    unfold deleteBook
    rw [hb]
  · intro h
    unfold deleteBook
    rw [h]
  · intro h
    obtain ⟨b, hb⟩ := Option.isSome_iff_exists.mp h
    unfold deleteBorrower
    rw [hb]
  · intro h
    unfold deleteBorrower
    rw [h]

/-- C2 witness: on `demoState`, both guards of the amended statement
fire concretely. -/
theorem c2_delete_cascades_witness :
    deleteBook demoState 1 = .ok { demoState with
      books := demoState.books.filter (fun b => b.id != 1),
      borrowings := demoState.borrowings.filter (fun br => br.bookId != 1) } ∧
    deleteBorrower demoState 2 = .error .borrowerNotFound :=
  ⟨(c2_delete_cascades demoState 1).1 (by decide),
   (c2_delete_cascades demoState 2).2.2.2 (by decide)⟩

/-- C3 counterexample: a checkout request that supplies an explicit
`dueDate` (here 5, i.e. 5 ms after the epoch) succeeds but the created
Borrowing's `dueDate` is `now + 14 days`, not the supplied value:
`BorrowingSchema` strips the member before the controller sees it. -/
theorem c3_duedate_counterexample :
    (checkoutBook 0 stockedState (BorrowingSchema.parse ⟨1, 1, some 5⟩)).map
        (fun p => p.1.dueDate) = .ok (addDays 0 14) ∧
    addDays 0 14 ≠ 5 := by
  refine ⟨by rfl, by decide⟩

/-- C3 (amended): every successful checkout creates a Borrowing with
`dueDate = checkoutDate + 14 days` regardless of any caller-supplied
due date (the schema admits only `bookId` and `borrowerId`), with
`returnDate = null` and `checkoutDate = now`. -/
theorem c3_duedate_always_14_days (now : Int) (s : LibState) (body : CheckoutBody)
    (br : Borrowing) (s' : LibState)
    (h : checkoutBook now s (BorrowingSchema.parse body) = .ok (br, s')) :
    br.dueDate = addDays now 14 ∧ br.checkoutDate = now ∧ br.returnDate = none := by
  obtain ⟨book, -, -, -, hbr, -⟩ := checkoutBook_ok h
  rw [hbr]
  exact ⟨rfl, rfl, rfl⟩

/-- C3 witness: the amended statement at the concrete checkout of
`c3_duedate_counterexample`. -/
theorem c3_duedate_witness :
    ∃ br s', checkoutBook 0 stockedState (BorrowingSchema.parse ⟨1, 1, some 5⟩)
        = .ok (br, s') ∧
      br.dueDate = addDays 0 14 ∧ br.checkoutDate = 0 ∧ br.returnDate = none := by
  refine ⟨_, _, rfl, c3_duedate_always_14_days 0 stockedState ⟨1, 1, some 5⟩ _ _ rfl⟩

/-- C4 counterexample: returning the open borrowing of `demoState`
well after its due date succeeds, but the response body has no
`wasOverdue` member — its members are exactly the Borrowing columns
plus `book` and `borrower`. -/
theorem c4_wasoverdue_counterexample :
    (returnBook (addDays 0 20) demoState 1).map (fun p => p.1.toJson.keys)
      = .ok ["id", "bookId", "borrowerId", "checkoutDate", "dueDate",
             "returnDate", "book", "borrower"] ∧
    "wasOverdue" ∉ ["id", "bookId", "borrowerId", "checkoutDate", "dueDate",
             "returnDate", "book", "borrower"] := by
  refine ⟨by rfl, by decide⟩

/-- C4 (amended): a successful `returnBook` responds with the updated
Borrowing (its `returnDate` set to now) joined with its Book (count
incremented) and Borrower — and with no derived `wasOverdue` flag in
the response. -/
theorem c4_return_result_shape (now : Int) (s : LibState) (id : Nat)
    (j : BorrowingJoined) (s' : LibState)
    (h : returnBook now s id = .ok (j, s')) :
    (∃ br book, findBorrowing s id = some br ∧ br.returnDate = none ∧
      findBook s br.bookId = some book ∧
      findBorrower s br.borrowerId = some j.borrower ∧
      j.borrowing = { br with returnDate := some now } ∧
      j.book = { book with quantity := book.quantity + 1 }) ∧
    j.toJson.keys = ["id", "bookId", "borrowerId", "checkoutDate", "dueDate",
                     "returnDate", "book", "borrower"] ∧
    "wasOverdue" ∉ j.toJson.keys := by
  obtain ⟨br, book, bw, hbr, hopen, hbook, hbw, hj, -⟩ := returnBook_ok h
  subst hj
  have hkeys : ∀ x : BorrowingJoined, x.toJson.keys
      = ["id", "bookId", "borrowerId", "checkoutDate", "dueDate",
         "returnDate", "book", "borrower"] := fun x => rfl
  refine ⟨⟨br, book, hbr, hopen, hbook, hbw, rfl, rfl⟩, hkeys _, ?_⟩
  rw [hkeys]
  decide

/-- C4 witness: the amended statement at the concrete return of
`c4_wasoverdue_counterexample`. -/
theorem c4_return_result_shape_witness :
    ∃ j s', returnBook (addDays 0 20) demoState 1 = .ok (j, s') ∧
      "wasOverdue" ∉ j.toJson.keys := by
  refine ⟨_, _, rfl, (c4_return_result_shape (addDays 0 20) demoState 1 _ _ rfl).2.2⟩

/-- C5: the checkout preconditions are evaluated in order — a missing
borrower answers 404 "Borrower not found" no matter what the book
state is, a missing book answers 404 "Book not found" no matter what
the stock is, an out-of-stock book answers 400 "Book not available for
checkout" — the three errors are pairwise distinct, and any error
leaves the store untouched. -/
theorem c5_checkout_preconditions (now : Int) (s : LibState) (body : CheckoutBody) :
    (findBorrower s (BorrowingSchema.parse body).borrowerId = none →
      checkoutBook now s (BorrowingSchema.parse body) = .error .borrowerNotFound) ∧
    (∀ bw, findBorrower s (BorrowingSchema.parse body).borrowerId = some bw →
      findBook s (BorrowingSchema.parse body).bookId = none →
      checkoutBook now s (BorrowingSchema.parse body) = .error .bookNotFound) ∧
    (∀ bw bk, findBorrower s (BorrowingSchema.parse body).borrowerId = some bw →
      findBook s (BorrowingSchema.parse body).bookId = some bk →
      bk.quantity ≤ 0 →
      checkoutBook now s (BorrowingSchema.parse body) = .error .bookUnavailable) ∧
    ([ApiError.borrowerNotFound, ApiError.bookNotFound,
      ApiError.bookUnavailable].Nodup) ∧
    (∀ e, checkoutBook now s (BorrowingSchema.parse body) = .error e →
      checkoutEndpointState now s body = s) := by
  refine ⟨?_, ?_, ?_, by decide, ?_⟩
  · intro h
    unfold checkoutBook checkoutChecks
    rw [h]
  · intro bw hbw hbook
    unfold checkoutBook checkoutChecks
    rw [hbw, hbook]
  · intro bw bk hbw hbook hq
    unfold checkoutBook checkoutChecks
    rw [hbw, hbook]
    simp [hq]
  · intro e he
    unfold checkoutEndpointState
    rw [he]

/-- C5 witness: each precondition failure exercised concretely on
small stores. -/
theorem c5_checkout_preconditions_witness :
    checkoutBook 0 stockedState (BorrowingSchema.parse ⟨1, 7, none⟩)
      = .error .borrowerNotFound ∧
    checkoutBook 0 stockedState (BorrowingSchema.parse ⟨7, 1, none⟩)
      = .error .bookNotFound ∧
    checkoutBook 0 demoState (BorrowingSchema.parse ⟨1, 1, none⟩)
      = .error .bookUnavailable ∧
    checkoutEndpointState 0 demoState ⟨1, 1, none⟩ = demoState := by
  refine ⟨(c5_checkout_preconditions 0 stockedState ⟨1, 7, none⟩).1 (by rfl),
          (c5_checkout_preconditions 0 stockedState ⟨7, 1, none⟩).2.1
            demoBorrower (by rfl) (by rfl),
          (c5_checkout_preconditions 0 demoState ⟨1, 1, none⟩).2.2.1
            demoBorrower demoBook (by rfl) (by rfl) (by decide),
          (c5_checkout_preconditions 0 demoState ⟨1, 1, none⟩).2.2.2.2
            .bookUnavailable ?_⟩
  exact (c5_checkout_preconditions 0 demoState ⟨1, 1, none⟩).2.2.1
    demoBorrower demoBook (by rfl) (by rfl) (by decide)

/-- C6: returning the same borrowing twice gives one success that sets
`returnDate`, then 400 "Book has already been returned"; the book's
count is incremented by the first call only, and the failed second
call leaves the store untouched. -/
theorem c6_double_return (now now2 : Int) (s : LibState) (id : Nat)
    (j : BorrowingJoined) (s1 : LibState)
    (h : returnBook now s id = .ok (j, s1)) :
    j.borrowing.returnDate = some now ∧
    (∃ bk, findBook s j.borrowing.bookId = some bk ∧
       findBook s1 j.borrowing.bookId = some { bk with quantity := bk.quantity + 1 }) ∧
    returnBook now2 s1 id = .error .alreadyReturned ∧
    returnEndpointState now2 s1 id = s1 := by
  obtain ⟨br, book, bw, hbr, hopen, hbook, hbw, hj, hs⟩ := returnBook_ok h
  obtain ⟨hbrmem, hbrid⟩ := findBorrowing_mem hbr
  obtain ⟨hbookmem, hbookid⟩ := findBook_mem hbook
  have hjbook : j.borrowing.bookId = br.bookId := by rw [hj]
  have hs1borrow : s1.borrowings = s.borrowings.map
      (fun x => if x.id == id then { br with returnDate := some now } else x) := by
    rw [hs]
  have hs1books : s1.books = s.books.map
      (fun b => if b.id == br.bookId
                then { book with quantity := book.quantity + 1 } else b) := by
    rw [hs]
  have hfidR : ∀ x : Borrowing,
      ((fun x => if x.id == id then { br with returnDate := some now } else x) x).id
        = x.id := by
    intro x
    by_cases hx : x.id = id
    · simp [hx, hbrid]
    · simp [hx]
  have hfidB : ∀ b : Book,
      ((fun b => if b.id == br.bookId
                 then { book with quantity := book.quantity + 1 } else b) b).id
        = b.id := by
    intro b
    by_cases hb : b.id = br.bookId
    · simp [hb, hbookid]
    · simp [hb]
  have hfindBr1 : findBorrowing s1 id = some { br with returnDate := some now } := by
    unfold findBorrowing
    rw [hs1borrow, find?_key_map Borrowing.id _ s.borrowings id hfidR,
        show s.borrowings.find? (fun b => b.id == id) = some br from hbr]
    simp only [Option.map_some']
    rw [if_pos (by simpa using hbrid)]
  refine ⟨by rw [hj], ⟨book, by rw [hjbook]; exact hbook, ?_⟩, ?_, ?_⟩
  · unfold findBook
    rw [hjbook, hs1books, find?_key_map Book.id _ s.books br.bookId hfidB,
        show s.books.find? (fun b => b.id == br.bookId) = some book from hbook]
    simp only [Option.map_some']
    rw [if_pos (by simpa using hbookid)]
  · unfold returnBook
    rw [hfindBr1]
    rfl
  · unfold returnEndpointState returnBook
    rw [hfindBr1]
    rfl

/-- C6 witness: the double return exercised on `demoState`'s open
borrowing. -/
theorem c6_double_return_witness :
    ∃ j s1, returnBook 5 demoState 1 = .ok (j, s1) ∧
      j.borrowing.returnDate = some 5 ∧
      returnBook 9 s1 1 = .error .alreadyReturned ∧
      returnEndpointState 9 s1 1 = s1 := by
  obtain ⟨h1, -, h3, h4⟩ := c6_double_return 5 9 demoState 1 _ _ rfl
  exact ⟨_, _, rfl, h1, h3, h4⟩

/-- C7: the resolved status is returned/overdue/active exactly as the
spec resolver says, the CSV export's status string is the rendering of
that resolver, and every row of `getOverdueBooks` is an open borrowing
past due whose `daysOverdue` equals
`max 0 (floor((now − dueDate) / 1 day))` and is never negative. -/
theorem c7_status_and_daysoverdue (now : Int) (s : LibState) (br : Borrowing) :
    (br.returnDate ≠ none → specStatus now br = .returned) ∧
    (br.returnDate = none → br.dueDate < now → specStatus now br = .overdue) ∧
    (br.returnDate = none → ¬ br.dueDate < now → specStatus now br = .active) ∧
    csvStatus now br = (specStatus now br).label ∧
    (∀ p ∈ getOverdueBooks now s,
      p.1.returnDate = none ∧ p.1.dueDate < now ∧
      p.2 = max 0 (daysOverdue now p.1.dueDate) ∧ 0 ≤ p.2) := by
  refine ⟨?_, ?_, ?_, ?_, ?_⟩
  · intro h
    unfold specStatus
    cases hr : br.returnDate with
    | none => exact absurd hr h
    | some t => rfl
  · intro h hd
    unfold specStatus
    rw [h]
    simp [hd]
  · intro h hd
    unfold specStatus
    rw [h]
    simp [hd]
  · unfold csvStatus specStatus
    cases hr : br.returnDate with
    | some t => simp [BorrowStatus.label]
    | none =>
      by_cases hd : br.dueDate < now <;> simp [hd, BorrowStatus.label]
  · intro p hp
    unfold getOverdueBooks at hp
    simp only [List.mem_map] at hp
    obtain ⟨b, hb, hpb⟩ := hp
    rw [List.mem_insertionSort] at hb
    rw [List.mem_filter] at hb
    obtain ⟨-, hcond⟩ := hb
    simp only [Bool.and_eq_true, decide_eq_true_eq, beq_iff_eq] at hcond
    obtain ⟨hdue, hret⟩ := hcond
    have hnn : 0 ≤ daysOverdue now b.dueDate := by
      unfold daysOverdue
      apply Int.fdiv_nonneg
      · omega
      · unfold msPerDay
        omega
    subst hpb
    exact ⟨hret, hdue, (max_eq_right hnn).symm, hnn⟩

/-- C7 witness: the resolver and the overdue query exercised on
`demoState` six days after the due date. -/
theorem c7_status_witness :
    specStatus (addDays 0 20) demoOpenBorrowing = .overdue ∧
    csvStatus (addDays 0 20) demoOpenBorrowing
      = (specStatus (addDays 0 20) demoOpenBorrowing).label ∧
    ∀ p ∈ getOverdueBooks (addDays 0 20) demoState,
      p.2 = max 0 (daysOverdue (addDays 0 20) p.1.dueDate) ∧ 0 ≤ p.2 := by
  obtain ⟨-, h2, -, h4, h5⟩ :=
    c7_status_and_daysoverdue (addDays 0 20) demoState demoOpenBorrowing
  exact ⟨h2 (by decide) (by decide), h4, fun p hp => ⟨(h5 p hp).2.2.1, (h5 p hp).2.2.2⟩⟩

/-- C10: `getAllBorrowings` returns exactly the open borrowings for
`status = "active"`, exactly the closed ones for `status =
"returned"`, and the whole ledger for every other value of the query
parameter (including `"overdue"` and absence); the result is ordered
by `checkoutDate` descending and the endpoint leaves the store
untouched. -/
theorem c10_getAllBorrowings_filter (s : LibState) (q : Option String) :
    (getAllBorrowings s (some "active")).Perm
      (s.borrowings.filter (fun b => b.returnDate == none)) ∧
    (getAllBorrowings s (some "returned")).Perm
      (s.borrowings.filter (fun b => b.returnDate.isSome)) ∧
    (q ≠ some "active" → q ≠ some "returned" →
      (getAllBorrowings s q).Perm s.borrowings) ∧
    List.Sorted moreRecentFirst (getAllBorrowings s q) ∧
    getAllBorrowingsEndpoint s q = (getAllBorrowings s q, s) := by
  refine ⟨?_, ?_, ?_, ?_, rfl⟩
  · unfold getAllBorrowings
    rw [if_pos (by rfl)]
    exact List.perm_insertionSort _ _
  · unfold getAllBorrowings
    rw [if_neg (by decide), if_pos (by rfl)]
    exact List.perm_insertionSort _ _
  · intro h1 h2
    unfold getAllBorrowings
    rw [if_neg (by simpa using h1), if_neg (by simpa using h2)]
    exact List.perm_insertionSort _ _
  · unfold getAllBorrowings
    by_cases h1 : q == some "active"
    · rw [if_pos h1]
      exact List.sorted_insertionSort _ _
    · rw [if_neg (by simpa using h1)]
      by_cases h2 : q == some "returned"
      · rw [if_pos h2]
        exact List.sorted_insertionSort _ _
      · rw [if_neg (by simpa using h2)]
        exact List.sorted_insertionSort _ _

/-- C10 witness: the filter branch for an unrecognized status value
(`"overdue"`) returns the whole ledger of `demoState`. -/
theorem c10_getAllBorrowings_witness :
    (getAllBorrowings demoState (some "overdue")).Perm demoState.borrowings ∧
    List.Sorted moreRecentFirst (getAllBorrowings demoState (some "overdue")) := by
  obtain ⟨-, -, h3, h4, -⟩ := c10_getAllBorrowings_filter demoState (some "overdue")
  exact ⟨h3 (by decide) (by decide), h4⟩

/-- Forward form of a successful checkout. -/
theorem checkoutBook_succeeds {s : LibState} {data : CheckoutInput} {bk : Book}
    (hbw : (findBorrower s data.borrowerId).isSome)
    (hbk : findBook s data.bookId = some bk) (hq : 0 < bk.quantity) (now : Int) :
    checkoutBook now s data = .ok (checkoutTxn s data bk now) := by
  obtain ⟨bw, hbw'⟩ := Option.isSome_iff_exists.mp hbw
  unfold checkoutBook checkoutChecks
  rw [hbw', hbk]
  simp only [if_neg (show ¬ bk.quantity ≤ 0 by omega)]

/-- Forward form of a successful return. -/
theorem returnBook_succeeds {s : LibState} {id : Nat} {br : Borrowing} {book : Book}
    {bw : Borrower} (hbr : findBorrowing s id = some br)
    (hopen : br.returnDate = none) (hbook : findBook s br.bookId = some book)
    (hbw : findBorrower s br.borrowerId = some bw) (now : Int) :
    returnBook now s id = .ok
      (⟨{ br with returnDate := some now },
        { book with quantity := book.quantity + 1 }, bw⟩,
       { s with
         books := s.books.map (fun b =>
           if b.id == br.bookId
           then { book with quantity := book.quantity + 1 } else b),
         borrowings := s.borrowings.map (fun b =>
           if b.id == id then { br with returnDate := some now } else b) }) := by
  unfold returnBook
  rw [hbr]
  simp only []
  rw [hopen, hbook, hbw]
  simp only [Option.isSome_none, Bool.false_eq_true, if_false]

/-- C8: from any well-formed store where the book has `q > 0` copies
on the shelf and the borrower exists, checkout followed by return of
the created borrowing restores the count to `q`, through the
intermediate value `q - 1`, and the borrowing ends with its
`returnDate` set. -/
theorem c8_checkout_return_roundtrip (now now2 : Int) (s : LibState)
    (bid brid : Nat) (bk : Book)
    (hfresh : ∀ x ∈ s.borrowings, x.id < s.nextBorrowingId)
    (hbk : findBook s bid = some bk) (hq : 0 < bk.quantity)
    (hbw : (findBorrower s brid).isSome) :
    ∃ br s1 j s2,
      checkoutBook now s ⟨bid, brid⟩ = .ok (br, s1) ∧
      findBook s1 bid = some { bk with quantity := bk.quantity - 1 } ∧
      br.returnDate = none ∧
      returnBook now2 s1 br.id = .ok (j, s2) ∧
      findBook s2 bid = some bk ∧
      j.borrowing.returnDate = some now2 := by
  obtain ⟨bw, hbw'⟩ := Option.isSome_iff_exists.mp hbw
  have hbkid : bk.id = bid := (findBook_mem hbk).2
  have hco : checkoutBook now s ⟨bid, brid⟩ = .ok
      ({ id := s.nextBorrowingId, bookId := bid, borrowerId := brid,
         checkoutDate := now, dueDate := addDays now 14, returnDate := none },
       { s with
         books := s.books.map (fun b =>
           if b.id == bid then { b with quantity := bk.quantity - 1 } else b),
         borrowings := s.borrowings ++
           [{ id := s.nextBorrowingId, bookId := bid, borrowerId := brid,
              checkoutDate := now, dueDate := addDays now 14, returnDate := none }],
         nextBorrowingId := s.nextBorrowingId + 1 }) :=
    @checkoutBook_succeeds s ⟨bid, brid⟩ bk hbw hbk hq now
  have hfidB : ∀ b : Book,
      ((fun b => if b.id == bid then { b with quantity := bk.quantity - 1 } else b) b).id
        = b.id := by
    intro b
    by_cases hb : b.id = bid <;> simp [hb]
  have hfind1 : findBook
      { s with
        books := s.books.map (fun b =>
          if b.id == bid then { b with quantity := bk.quantity - 1 } else b),
        borrowings := s.borrowings ++
          [{ id := s.nextBorrowingId, bookId := bid, borrowerId := brid,
             checkoutDate := now, dueDate := addDays now 14, returnDate := none }],
        nextBorrowingId := s.nextBorrowingId + 1 } bid
      = some { bk with quantity := bk.quantity - 1 } := by
    unfold findBook
    show (s.books.map (fun b =>
        if b.id == bid then { b with quantity := bk.quantity - 1 } else b)).find?
      (fun b => b.id == bid) = _
    rw [find?_key_map Book.id _ s.books bid hfidB,
        show s.books.find? (fun b => b.id == bid) = some bk from hbk]
    simp only [Option.map_some']
    rw [if_pos (by simpa using hbkid)]
  have hfindbr : findBorrowing
      { s with
        books := s.books.map (fun b =>
          if b.id == bid then { b with quantity := bk.quantity - 1 } else b),
        borrowings := s.borrowings ++
          [{ id := s.nextBorrowingId, bookId := bid, borrowerId := brid,
             checkoutDate := now, dueDate := addDays now 14, returnDate := none }],
        nextBorrowingId := s.nextBorrowingId + 1 } s.nextBorrowingId
      = some { id := s.nextBorrowingId, bookId := bid, borrowerId := brid,
               checkoutDate := now, dueDate := addDays now 14, returnDate := none } := by
    unfold findBorrowing
    show (s.borrowings ++
        [({ id := s.nextBorrowingId, bookId := bid, borrowerId := brid,
            checkoutDate := now, dueDate := addDays now 14,
            returnDate := none } : Borrowing)]).find?
      (fun b => b.id == s.nextBorrowingId) = _
    rw [find?_append_fresh Borrowing.id
          (fun x hx => Nat.ne_of_lt (hfresh x hx))]
    simp
  have hret := returnBook_succeeds hfindbr rfl hfind1 hbw' now2
  refine ⟨_, _, _, _, hco, hfind1, rfl, hret, ?_, rfl⟩
  unfold findBook
  show ((s.books.map (fun b =>
      if b.id == bid then { b with quantity := bk.quantity - 1 } else b)).map (fun b =>
      if b.id == bid
      then { bk with quantity := bk.quantity - 1 + 1 } else b)).find?
    (fun b => b.id == bid) = some bk
  have hfidB2 : ∀ b : Book,
      ((fun b => if b.id == bid
                 then { bk with quantity := bk.quantity - 1 + 1 } else b) b).id
        = b.id := by
    intro b
    by_cases hb : b.id = bid <;> simp [hb, hbkid]
  rw [find?_key_map Book.id _ _ bid hfidB2,
      show (s.books.map (fun b =>
          if b.id == bid then { b with quantity := bk.quantity - 1 } else b)).find?
        (fun b => b.id == bid) = some { bk with quantity := bk.quantity - 1 } from hfind1]
  simp only [Option.map_some']
  rw [if_pos (by simpa using hbkid),
      show bk.quantity - 1 + 1 = bk.quantity by omega]

/-- C8 witness: the round trip on `stockedState` (one copy on the
shelf). -/
theorem c8_checkout_return_roundtrip_witness :
    ∃ br s1 j s2,
      checkoutBook 0 stockedState ⟨1, 1⟩ = .ok (br, s1) ∧
      findBook s1 1 = some { demoBook with quantity := 0 } ∧
      br.returnDate = none ∧
      returnBook 5 s1 br.id = .ok (j, s2) ∧
      findBook s2 1 = some { demoBook with quantity := 1 } ∧
      j.borrowing.returnDate = some 5 :=
  c8_checkout_return_roundtrip 0 5 stockedState 1 1 { demoBook with quantity := 1 }
    (by decide) (by rfl) (by decide) (by rfl)

/-- C9: with `availableQuantity = 1`, two concurrent checkout requests
can BOTH pass the availability check (it runs outside the transaction,
against the same snapshot) and both transactions then commit, each
writing `quantity := snapshot.quantity - 1 = 0`: two open borrowings
are created for one copy, no request receives the unavailability
error, and the availability invariant is violated — not the
"exactly 1 success, N−1 rejections" the claim states. -/
theorem c9_concurrent_double_checkout :
    checkoutChecks stockedState ⟨1, 1⟩ = .ok { demoBook with quantity := 1 } ∧
    (findBook raceState 1).map Book.quantity = some 0 ∧
    openCount raceState 1 = 2 ∧
    ¬ availInvariant raceState := by
  exact ⟨by rfl, by rfl, by rfl, by decide⟩

/-- States reachable without `updateBook` are also reachable with it
admitted. -/
theorem ReachableU_of_Reachable {s : LibState} (h : Reachable s) : ReachableU s := by
  induction h with
  | empty => exact .empty
  | addBook _ hok ih => exact .addBook ih hok
  | registerBorrower _ hok ih => exact .registerBorrower ih hok
  | checkout _ hok ih => exact .checkout ih hok
  | returnB _ hok ih => exact .returnB ih hok

/-- The store with `demoBook`'s one copy out is reached by: create the
book (one copy), register the borrower, check the copy out at time 0. -/
theorem demoState_reachable : Reachable demoState := by
  have h1 : Reachable afterAddBook :=
    Reachable.addBook (i := ⟨"Dune", "Herbert", "9780441172719", 1, none⟩)
      Reachable.empty (by rfl)
  have h2 : Reachable afterRegister :=
    Reachable.registerBorrower (i := ⟨"Ada", "ada@example.com"⟩) h1 (by rfl)
  exact @Reachable.checkout afterRegister 0 ⟨1, 1, none⟩ demoOpenBorrowing demoState
    h2 (by rfl)

/-- C1 counterexample: the claim quantifies over book updates, but
`updateBook` writes the stored count directly without consulting open
borrowings.  `c1BadState` is reached by create → register → checkout →
`updateBook { quantity: 3 }` and violates
`availableQuantity = totalQuantity − openCount` (3 ≠ 3 − 1). -/
theorem c1_availability_invariant_counterexample :
    ReachableU c1BadState ∧ ¬ availInvariant c1BadState :=
  ⟨@ReachableU.updateBook demoState 1 restockPatch
    { demoBook with quantity := 3, totalQuantity := 3 } c1BadState
    (ReachableU_of_Reachable demoState_reachable) (by rfl), by decide⟩

/-- C1 (amended): quantities are never negative in any state reachable
by the engine's operations including `updateBook`; and in every state
reachable by book creation, checkout and return (no inventory update),
every book satisfies `0 ≤ availableQuantity ≤ totalQuantity` and
`availableQuantity = totalQuantity − openCount`. -/
theorem c1_availability_invariant (s : LibState) :
    (ReachableU s → ∀ b ∈ s.books, 0 ≤ b.quantity) ∧
    (Reachable s → availInvariant s) :=
  ⟨fun h => reachableU_nonneg h, fun h => (reachable_wf_inv h).2⟩

/-- C1 witness: the invariant instantiated at the reachable store
`demoState`. -/
theorem c1_availability_invariant_witness :
    Reachable demoState ∧ availInvariant demoState ∧
    (∀ b ∈ demoState.books, 0 ≤ b.quantity) :=
  ⟨demoState_reachable,
   (c1_availability_invariant demoState).2 demoState_reachable,
   (c1_availability_invariant demoState).1
     (ReachableU_of_Reachable demoState_reachable)⟩
